import Mathlib

/-!
Verification of the unified-ui agent service's tool bridge and event
normalization layer, shallowly embedded from the Python sources
(`agent.py`, `agent_config.py`).

Conventions of the embedding:
* Python exceptions are modelled with `Except String`; pydantic validation
  errors are `Except.error` values.
* Python truthiness of a string is the test `≠ ""`; truthiness of a list is
  the test `≠ []`; an attribute that may be missing is an `Option`.
* The remote MCP endpoint (an external process) is abstracted as an oracle
  function supplied to the definitions that use it; every other step is the
  source code's own logic.
-/

set_option autoImplicit false

namespace UnifiedUI

/-- Raw `mcp_config` value as it appears in the configuration JSON before
validation: any of the fields of either transport shape may be present. -/
structure RawMCPConfig where
  command : Option String
  args : Option (List String)
  env : Option (List (String × String))
  url : Option String
  headers : Option (List (String × String))
deriving DecidableEq

/-- `MCPServerConfig` from `agent_config.py`: the pydantic model has exactly
the fields `url : str` and `headers : dict[str, str] | None = None`. -/
structure MCPServerConfig where
  url : String
  headers : Option (List (String × String)) := none
deriving DecidableEq

/-- Pydantic construction `MCPServerConfig(**raw)` (agent.py line 126):
`url` is required, `headers` defaults to `None`, and extra keyword fields
(such as `command`) are ignored by the default pydantic configuration.
A missing `url` raises a `ValidationError`. -/
def mkMCPServerConfig (raw : RawMCPConfig) : Except String MCPServerConfig :=
  match raw.url with
  | some u => Except.ok { url := u, headers := raw.headers }
  | none => Except.error "validation error: url field required"

/-- `ToolConfig` from `agent_config.py`. `mcp_config` is the pydantic union
`MCPServerConfig | dict`: a value that validated as `MCPServerConfig` is
`Sum.inl`, one that stayed a raw mapping is `Sum.inr`. -/
structure ToolConfig where
  type : String
  name : String
  trigger_description : String
  mcp_config : Sum MCPServerConfig RawMCPConfig
  allowed_tools : Option (List String) := none
deriving DecidableEq

/-- One entry of the provider's tool manifest as returned by
`session.list_tools()`: `description` is optional and `inputSchema` may be
absent (`hasattr` test in agent.py line 186). Schemas are kept opaque as
strings. -/
structure MCPTool where
  name : String
  description : Option String
  inputSchema : Option String
deriving DecidableEq

/-- The `tools_info` dictionary built per manifest entry in
`_get_mcp_tools_async` (agent.py lines 183-187). -/
structure ToolInfo where
  name : String
  description : String
  input_schema : Option String
deriving DecidableEq

/-- Mapping of one manifest entry to a `tools_info` record (agent.py lines
183-187): `description` is `tool.description or f"MCP tool: {tool.name}"`,
where Python's `or` replaces both `None` and the empty string. -/
def toToolInfo (t : MCPTool) : ToolInfo :=
  { name := t.name
    description :=
      match t.description with
      | some d => if d = "" then "MCP tool: " ++ t.name else d
      | none => "MCP tool: " ++ t.name
    input_schema := t.inputSchema }

/-- A bridged LangChain `StructuredTool` as built in `_load_mcp_tools`
(agent.py lines 149-154): name, description and args schema are copied from
the `tools_info` record; the callable closure captures the server name. -/
structure BridgedTool where
  name : String
  description : String
  args_schema : Option String
  server_name : String
deriving DecidableEq

/-- Construction of one `StructuredTool` from a `tools_info` record
(agent.py lines 149-154). -/
def mkBridgedTool (tc : ToolConfig) (info : ToolInfo) : BridgedTool :=
  { name := info.name
    description := info.description
    args_schema := info.input_schema
    server_name := tc.name }

/-- `_load_mcp_tools` (agent.py lines 120-164). The `mcp_config` dict is
converted with `MCPServerConfig(**mcp_config)` BEFORE the try block, so a
validation failure propagates. Inside the try block, discovery (abstracted
by the oracle `disc`, standing for `_get_mcp_tools_async`) either fails —
the exception is caught, logged, and the empty tool list is returned — or
yields `tools_info` records that are each bridged. The `allowed_tools`
field of the configuration is never consulted. -/
def loadMcpTools (disc : MCPServerConfig → Except String (List ToolInfo))
    (tc : ToolConfig) : Except String (List BridgedTool) :=
  match (match tc.mcp_config with
         | Sum.inl c => Except.ok c
         | Sum.inr raw => mkMCPServerConfig raw) with
  | Except.error e => Except.error e
  | Except.ok mc =>
      match disc mc with
      | Except.error _ => Except.ok []
      | Except.ok infos => Except.ok (infos.map (fun info => mkBridgedTool tc info))

/-- `_load_tools` (agent.py lines 105-118): iterate the configured tools in
order; an entry of type `"mcp_server"` contributes its loaded tools via
`tools.extend(...)` when MCP is available and is skipped otherwise; every
other type is ignored. -/
def loadTools (mcpAvailable : Bool)
    (disc : MCPServerConfig → Except String (List ToolInfo)) :
    List ToolConfig → Except String (List BridgedTool)
  | [] => Except.ok []
  | tc :: rest =>
    if tc.type = "mcp_server" then
      if mcpAvailable then
        match loadMcpTools disc tc with
        | Except.error e => Except.error e
        | Except.ok ts =>
            match loadTools mcpAvailable disc rest with
            | Except.error e => Except.error e
            | Except.ok more => Except.ok (ts ++ more)
      else loadTools mcpAvailable disc rest
    else loadTools mcpAvailable disc rest

/-- One fragment of a capability-invocation response's `content` list
(agent.py lines 209-213): either an object carrying a `text` attribute, or
a dict (whose `text` key may or may not be present), or any other content
object (image, resource, ...) with neither. -/
inductive Fragment where
  | textAttr (text : String)
  | dictFrag (entries : List (String × String))
  | otherFrag (tag : String)
deriving DecidableEq

/-- A `call_tool` response. `CallToolResult` always has the `content`
attribute, so the `hasattr(response, 'content')` test reduces to the list
truthiness test. -/
structure MCPResponse where
  content : List Fragment
deriving DecidableEq

/-- Rendering of one fragment inside `str(response)`. -/
def fragRepr : Fragment → String
  | Fragment.textAttr t => "TextContent text=" ++ t
  | Fragment.dictFrag _ => "dict"
  | Fragment.otherFrag tag => tag

/-- Python's `str(response)` for a `CallToolResult`: the pydantic object
representation, which always carries the field names. -/
def strRepr (resp : MCPResponse) : String :=
  "meta=None content=" ++ String.intercalate ", " (resp.content.map fragRepr)
    ++ " isError=False"

/-- Text contributed by one content fragment in the extraction loop
(agent.py lines 209-213): `content.text` when the attribute exists, else
the dict's `text` entry when present, else nothing. -/
def fragmentPiece : Fragment → String
  | Fragment.textAttr t => t
  | Fragment.dictFrag es =>
      match List.lookup "text" es with
      | some t => t
      | none => ""
  | Fragment.otherFrag _ => ""

/-- Result-string extraction of `_call_mcp_tool_async` (agent.py lines
199-217): when the `content` list is truthy, concatenate the pieces of its
fragments in order starting from `result = ""`; otherwise fall back to
`str(response)`. -/
def extractResult (resp : MCPResponse) : String :=
  if resp.content ≠ [] then
    resp.content.foldl (fun acc c => acc ++ fragmentPiece c) ""
  else strRepr resp

/-- Observable steps of one transport session, used to trace teardown. -/
inductive SessionStep where
  | channelOpened
  | channelClosed
  | sessionOpened
  | sessionClosed
  | initDone
  | toolsListed
  | toolCalled
deriving DecidableEq

/-- Python's `async with` over a scoped resource: the `__aenter__` step runs
first, the body runs next, and the `__aexit__` step runs on every exit path
— after a normal return and before a body exception propagates (a
cancellation surfaces as an exception at an `await` point and takes the
same path). The body's outcome is passed through unchanged. -/
def withScope {α : Type} (openStep closeStep : SessionStep)
    (body : Except String α × List SessionStep) :
    Except String α × List SessionStep :=
  (body.1, openStep :: body.2 ++ [closeStep])

/-- Outcomes of the remote endpoint's three operations for one session:
`session.initialize()`, `session.list_tools()` and `session.call_tool`.
An `Except.error` value stands for a raised exception (handshake failure,
transport failure, or cancellation delivered at the `await`). -/
structure SessionBehavior where
  initRes : Except String Unit
  listRes : Except String (List MCPTool)
  callRes : Except String MCPResponse

/-- Body of the discovery session in `_get_mcp_tools_async` (agent.py lines
177-187): initialize the session, list the tools, and map each manifest
entry to a `tools_info` record. Each step's exception aborts the rest of
the body. -/
def discoverBody (b : SessionBehavior) :
    Except String (List ToolInfo) × List SessionStep :=
  match b.initRes with
  | Except.error e => (Except.error e, [])
  | Except.ok _ =>
      match b.listRes with
      | Except.error e => (Except.error e, [SessionStep.initDone])
      | Except.ok ts =>
          (Except.ok (ts.map toToolInfo),
           [SessionStep.initDone, SessionStep.toolsListed])

/-- `_get_mcp_tools_async` (agent.py lines 166-189): the discovery body runs
inside `async with stdio_client(...)` and, nested, `async with
ClientSession(...)`. -/
def getMcpToolsSession (b : SessionBehavior) :
    Except String (List ToolInfo) × List SessionStep :=
  withScope SessionStep.channelOpened SessionStep.channelClosed
    (withScope SessionStep.sessionOpened SessionStep.sessionClosed
      (discoverBody b))

/-- Body of the invocation session in `_call_mcp_tool_async` (agent.py
lines 202-215): initialize the session, call the tool, and extract the
result string from the response. -/
def callBody (b : SessionBehavior) :
    Except String String × List SessionStep :=
  match b.initRes with
  | Except.error e => (Except.error e, [])
  | Except.ok _ =>
      match b.callRes with
      | Except.error e => (Except.error e, [SessionStep.initDone])
      | Except.ok resp =>
          (Except.ok (extractResult resp),
           [SessionStep.initDone, SessionStep.toolCalled])

/-- `_call_mcp_tool_async` (agent.py lines 191-217): the invocation body
runs inside the same two nested `async with` scopes as discovery. -/
def callMcpToolSession (b : SessionBehavior) :
    Except String String × List SessionStep :=
  withScope SessionStep.channelOpened SessionStep.channelClosed
    (withScope SessionStep.sessionOpened SessionStep.sessionClosed
      (callBody b))

/-- A well-formed raw event of the reasoning engine's stream
(`astream_events`): the event kind string together with the payload paths
the classifier may read (`event["data"]["chunk"].content`, `event["name"]`,
`event["data"]["output"]`). -/
structure RawEvent where
  event : String
  chunkContent : String
  name : String
  output : String
deriving DecidableEq

/-- A normalized event yielded by `invoke_stream`: one of the dicts
`{"type": "TEXT_STREAM", ...}`, `{"type": "TOOL_START", ...}`,
`{"type": "TOOL_END", ...}`. -/
inductive NormalizedEvent where
  | textStream (content : String)
  | toolStart (name : String)
  | toolEnd (output : String)
deriving DecidableEq

/-- The event classification of `invoke_stream` (agent.py lines 70-86):
chain start and end match their branches and yield nothing, a chat-model
stream chunk yields a TEXT_STREAM event, tool start and end yield
TOOL_START and TOOL_END events, and any other kind falls through the
if/elif chain and yields nothing. -/
def classify (e : RawEvent) : Option NormalizedEvent :=
  if e.event = "on_chain_start" then none
  else if e.event = "on_chain_end" then none
  else if e.event = "on_chat_model_stream" then
    some (NormalizedEvent.textStream e.chunkContent)
  else if e.event = "on_tool_start" then
    some (NormalizedEvent.toolStart e.name)
  else if e.event = "on_tool_end" then
    some (NormalizedEvent.toolEnd e.output)
  else none

/-- The whole streaming loop of `invoke_stream` over a finished raw event
sequence: each raw event contributes its classification, in order. -/
def invokeStreamEvents (raw : List RawEvent) : List NormalizedEvent :=
  raw.filterMap classify

/-- `UnifiedUIMessage` from agent.py: an external message. -/
structure UnifiedUIMessage where
  role : String
  content : String
deriving DecidableEq

/-- A LangChain message object: `SystemMessage`, `HumanMessage` or
`AIMessage`. -/
inductive LCMessage where
  | system (content : String)
  | human (content : String)
  | ai (content : String)
deriving DecidableEq

/-- Whether a LangChain message is a `SystemMessage`. -/
def LCMessage.isSystem : LCMessage → Bool
  | LCMessage.system _ => true
  | _ => false

/-- Conversion of one external message inside the loop of
`_convert_to_langchain_messages` (agent.py lines 227-234): role `user`
becomes a `HumanMessage`, roles `assistant`, `agent` and `ai` become an
`AIMessage`, and any other role falls back to a `HumanMessage`. -/
def convertMessage (m : UnifiedUIMessage) : LCMessage :=
  if m.role = "user" then LCMessage.human m.content
  else if m.role = "assistant" ∨ m.role = "agent" ∨ m.role = "ai" then
    LCMessage.ai m.content
  else LCMessage.human m.content

/-- `_convert_to_langchain_messages` (agent.py lines 219-235): start with a
`SystemMessage` holding the configured instructions when that string is
truthy (non-empty), then append the conversion of each external message in
order. -/
def convertToLangchainMessages (instructions : String)
    (msgs : List UnifiedUIMessage) : List LCMessage :=
  msgs.foldl (fun acc m => acc ++ [convertMessage m])
    (if instructions ≠ "" then [LCMessage.system instructions] else [])

/-- A three-capability manifest, already in `tools_info` form. -/
def manifestABC : List ToolInfo :=
  [{ name := "A", description := "MCP tool: A", input_schema := none },
   { name := "B", description := "MCP tool: B", input_schema := none },
   { name := "C", description := "MCP tool: C", input_schema := none }]

/-- A ToolConfig whose allow-list admits only capabilities `A` and `C`. -/
def allowConfigAC : ToolConfig :=
  { type := "mcp_server"
    name := "calc"
    trigger_description := "arithmetic"
    mcp_config := Sum.inl { url := "http://localhost:8000/sse", headers := none }
    allowed_tools := some ["A", "C"] }

/-- A ToolConfig of a non-MCP type. -/
def webSearchConfig : ToolConfig :=
  { type := "web_search"
    name := "search"
    trigger_description := "search the web"
    mcp_config := Sum.inl { url := "http://localhost:9000/sse", headers := none }
    allowed_tools := none }

/-- A ToolConfig whose provider endpoint cannot be reached. -/
def failingConfig : ToolConfig :=
  { type := "mcp_server"
    name := "broken"
    trigger_description := "unreachable provider"
    mcp_config := Sum.inl { url := "http://fail:1/sse", headers := none }
    allowed_tools := none }

/-- A discovery oracle that fails for `failingConfig`'s endpoint and
returns the three-capability manifest for every other endpoint. -/
def discFailCalc : MCPServerConfig → Except String (List ToolInfo) :=
  fun mc =>
    if mc.url = "http://fail:1/sse" then Except.error "connection refused"
    else Except.ok manifestABC

/-- Folding message conversion over a history equals appending the mapped
history to the accumulator. -/
theorem foldl_convert_eq (msgs : List UnifiedUIMessage) (acc : List LCMessage) :
    msgs.foldl (fun a m => a ++ [convertMessage m]) acc
      = acc ++ msgs.map convertMessage := by
  induction msgs generalizing acc with
  | nil => simp
  | cons m rest ih => simp [ih]

/-- The conversion of an external message is never a `SystemMessage`. -/
theorem convertMessage_not_system (m : UnifiedUIMessage) :
    (convertMessage m).isSystem = false := by
  simp only [convertMessage]
  split_ifs <;> rfl

/-- `loadTools` distributes over list append: the aggregate of a
concatenated configuration is the in-order concatenation of the two
aggregates (with the first error, if any, propagating). -/
theorem loadTools_append (mcpA : Bool)
    (disc : MCPServerConfig → Except String (List ToolInfo))
    (xs ys : List ToolConfig) :
    loadTools mcpA disc (xs ++ ys)
      = Except.bind (loadTools mcpA disc xs)
          (fun a => Except.map (fun b => a ++ b) (loadTools mcpA disc ys)) := by
  induction xs with
  | nil =>
      cases hy : loadTools mcpA disc ys <;>
        simp [loadTools, hy, Except.bind, Except.map]
  | cons tc rest ih =>
      by_cases ht : tc.type = "mcp_server"
      · cases mcpA with
        | false => simp [loadTools, ht, ih]
        | true =>
            cases hl : loadMcpTools disc tc with
            | error e => simp [loadTools, ht, hl, Except.bind]
            | ok ts =>
                cases hr : loadTools true disc rest with
                | error e =>
                    have := ih
                    rw [hr] at this
                    cases hy : loadTools true disc ys <;>
                      simp_all [loadTools, ht, hl, Except.bind, Except.map]
                | ok more =>
                    have := ih
                    rw [hr] at this
                    cases hy : loadTools true disc ys <;>
                      simp_all [loadTools, ht, hl, Except.bind, Except.map,
                        List.append_assoc]
      · simp [loadTools, ht, ih]

/-- C1: with an allow-list of exactly the names `A` and `C` and a
discovered manifest of capabilities `A`, `B`, `C`, the bridging code still
produces all three tools — `allowed_tools` is declared in the configuration
model but never read by the loader, so no filtering happens. -/
theorem allowed_tools_ignored :
    allowConfigAC.allowed_tools = some ["A", "C"]
    ∧ Except.map (fun ts => List.map BridgedTool.name ts)
        (loadMcpTools (fun _ => Except.ok manifestABC) allowConfigAC)
      = Except.ok ["A", "B", "C"] :=
  ⟨rfl, rfl⟩

/-- C2: a raw `mcp_config` carrying `command` (and no `url`) is rejected by
`MCPServerConfig` construction with a validation error rather than yielding
a Process-transport descriptor, while a `url`-carrying value constructs the
model's only shape (url + headers). The configuration model has no Process
variant at all. -/
theorem mcp_config_command_rejected :
    mkMCPServerConfig
        { command := some "python", args := some ["server.py"], env := none,
          url := none, headers := none }
      = Except.error "validation error: url field required"
    ∧ mkMCPServerConfig
        { command := none, args := none, env := none,
          url := some "http://localhost:8000/sse", headers := none }
      = Except.ok { url := "http://localhost:8000/sse", headers := none } :=
  ⟨rfl, rfl⟩

/-- C3 counterexample: a response whose content list is non-empty but holds
no textual fragment yields the empty result string, not the response's
(non-empty) string representation — the fallback only triggers on an empty
content list. -/
theorem extract_result_nontext_counterexample :
    extractResult { content := [Fragment.otherFrag "ImageContent"] } = ""
    ∧ strRepr { content := [Fragment.otherFrag "ImageContent"] } ≠ ""
    ∧ ¬ (extractResult { content := [Fragment.otherFrag "ImageContent"] }
          = strRepr { content := [Fragment.otherFrag "ImageContent"] }) :=
  ⟨rfl, by decide, by decide⟩

/-- C3 (amended): the bridged callable returns the in-order concatenation
of the text contributed by each content fragment; when the content list is
empty it returns the response's string representation, which is non-empty.
(A non-empty content list with no textual fragments therefore yields the
empty string, not the string representation.) -/
theorem extract_result_amended (resp : MCPResponse) :
    (resp.content = [] → extractResult resp = strRepr resp ∧ strRepr resp ≠ "")
    ∧ (resp.content ≠ [] →
        extractResult resp = String.join (resp.content.map fragmentPiece)) := by
  constructor
  · intro h
    cases resp with
    | mk content =>
        simp only at h
        subst h
        exact ⟨rfl, by decide⟩
  · intro h
    simp [extractResult, h, String.join, List.foldl_map]

/-- Witness for C3's amended theorem: the response with textual fragments
`4` then `2` bridges to the result string `42`. -/
theorem extract_result_amended_witness :
    (MCPResponse.mk [Fragment.textAttr "4", Fragment.textAttr "2"]).content ≠ []
    ∧ extractResult (MCPResponse.mk [Fragment.textAttr "4", Fragment.textAttr "2"])
        = "42" := by
  refine ⟨by decide, ?_⟩
  have h := (extract_result_amended
    (MCPResponse.mk [Fragment.textAttr "4", Fragment.textAttr "2"])).2 (by decide)
  exact h.trans (by decide)

/-- C4: classification of a well-formed raw event is total and pure: a
chat-model stream chunk maps to a TEXT_STREAM event with the chunk text, a
tool start maps to TOOL_START with the tool name, a tool end maps to
TOOL_END with the output value, chain start and end map to nothing, and any
unrecognized kind maps to nothing. -/
theorem classify_event_spec (e : RawEvent) :
    (e.event = "on_chat_model_stream" →
      classify e = some (NormalizedEvent.textStream e.chunkContent))
    ∧ (e.event = "on_tool_start" →
      classify e = some (NormalizedEvent.toolStart e.name))
    ∧ (e.event = "on_tool_end" →
      classify e = some (NormalizedEvent.toolEnd e.output))
    ∧ ((e.event = "on_chain_start" ∨ e.event = "on_chain_end") →
      classify e = none)
    ∧ (e.event ∉ ["on_chain_start", "on_chain_end", "on_chat_model_stream",
        "on_tool_start", "on_tool_end"] → classify e = none) := by
  refine ⟨?_, ?_, ?_, ?_, ?_⟩ <;> intro h
  · simp [classify, h]
  · simp [classify, h]
  · simp [classify, h]
  · rcases h with h | h <;> simp [classify, h]
  · simp only [List.mem_cons, List.not_mem_nil, or_false, not_or] at h
    obtain ⟨h1, h2, h3, h4, h5⟩ := h
    simp [classify, h1, h2, h3, h4, h5]

/-- Witness for C4: an unrecognized event kind produces no emitted event. -/
theorem classify_event_spec_witness :
    (RawEvent.mk "on_custom" "" "" "").event ∉
      ["on_chain_start", "on_chain_end", "on_chat_model_stream",
       "on_tool_start", "on_tool_end"]
    ∧ classify (RawEvent.mk "on_custom" "" "" "") = none := by
  refine ⟨by decide, ?_⟩
  exact (classify_event_spec (RawEvent.mk "on_custom" "" "" "")).2.2.2.2 (by decide)

/-- C5: a discovery failure (session or handshake failure, surfaced as a
caught exception inside `_load_mcp_tools`) for one provider neither aborts
the load nor changes the tools aggregated from the other providers: the
failing provider contributes nothing and the result is as if it were
absent. -/
theorem load_tools_failure_isolated
    (disc : MCPServerConfig → Except String (List ToolInfo))
    (pre post : List ToolConfig) (tcF : ToolConfig) (mc : MCPServerConfig)
    (e : String)
    (htype : tcF.type = "mcp_server")
    (hconf : tcF.mcp_config = Sum.inl mc)
    (hfail : disc mc = Except.error e) :
    loadTools true disc (pre ++ tcF :: post) = loadTools true disc (pre ++ post) := by
  have hload : loadMcpTools disc tcF = Except.ok [] := by
    simp [loadMcpTools, hconf, hfail]
  induction pre with
  | nil =>
      simp only [List.nil_append]
      cases hr : loadTools true disc post <;>
        simp [loadTools, htype, hload, hr]
  | cons hd tl ih =>
      simp only [List.cons_append, loadTools, List.append_eq, ih]

/-- Witness for C5: with a reachable provider before and after an
unreachable one, the aggregate equals the aggregate without the
unreachable provider. -/
theorem load_tools_failure_isolated_witness :
    failingConfig.type = "mcp_server"
    ∧ failingConfig.mcp_config
        = Sum.inl { url := "http://fail:1/sse", headers := none }
    ∧ discFailCalc { url := "http://fail:1/sse", headers := none }
        = Except.error "connection refused"
    ∧ loadTools true discFailCalc ([allowConfigAC] ++ failingConfig :: [webSearchConfig])
        = loadTools true discFailCalc ([allowConfigAC] ++ [webSearchConfig]) := by
  refine ⟨rfl, rfl, rfl, ?_⟩
  exact load_tools_failure_isolated discFailCalc [allowConfigAC] [webSearchConfig]
    failingConfig { url := "http://fail:1/sse", headers := none }
    "connection refused" rfl rfl rfl

/-- C6: for every behavior of the remote endpoint — a successful body, a
failed handshake, a failed manifest request or a failed tool call
(cancellation surfacing the same way) — both the discovery session and the
invocation session close the client session and tear the channel down
exactly once, the channel teardown being the last step before any error
propagates. -/
theorem session_scope_teardown (b : SessionBehavior) :
    List.count SessionStep.channelClosed (getMcpToolsSession b).2 = 1
    ∧ List.count SessionStep.sessionClosed (getMcpToolsSession b).2 = 1
    ∧ (getMcpToolsSession b).2.getLast? = some SessionStep.channelClosed
    ∧ List.count SessionStep.channelClosed (callMcpToolSession b).2 = 1
    ∧ List.count SessionStep.sessionClosed (callMcpToolSession b).2 = 1
    ∧ (callMcpToolSession b).2.getLast? = some SessionStep.channelClosed := by
  obtain ⟨ir, lr, cr⟩ := b
  cases ir <;> cases lr <;> cases cr <;>
    simp [getMcpToolsSession, callMcpToolSession, withScope, discoverBody,
      callBody]

/-- C7: with non-empty configured instructions, the converted history is
exactly one system message holding the instructions followed by the
converted input messages; `user` maps to a human message, `assistant`,
`agent` and `ai` map to an assistant message, and every other role maps to
a human message. -/
theorem convert_messages_spec (instr : String) (msgs : List UnifiedUIMessage)
    (h : instr ≠ "") :
    convertToLangchainMessages instr msgs
        = LCMessage.system instr :: msgs.map convertMessage
    ∧ List.countP (fun m => LCMessage.isSystem m)
        (convertToLangchainMessages instr msgs) = 1
    ∧ (∀ c, convertMessage { role := "user", content := c } = LCMessage.human c)
    ∧ (∀ r c, (r = "assistant" ∨ r = "agent" ∨ r = "ai") →
        convertMessage { role := r, content := c } = LCMessage.ai c)
    ∧ (∀ r c, r ≠ "user" → r ≠ "assistant" → r ≠ "agent" → r ≠ "ai" →
        convertMessage { role := r, content := c } = LCMessage.human c) := by
  have hmain : convertToLangchainMessages instr msgs
      = LCMessage.system instr :: msgs.map convertMessage := by
    unfold convertToLangchainMessages
    rw [if_pos h, foldl_convert_eq]
    rfl
  have hzero : List.countP (fun m => LCMessage.isSystem m)
      (msgs.map convertMessage) = 0 := by
    rw [List.countP_eq_zero]
    intro a ha
    obtain ⟨m, _, rfl⟩ := List.mem_map.mp ha
    simp [convertMessage_not_system]
  refine ⟨hmain, ?_, ?_, ?_, ?_⟩
  · rw [hmain, List.countP_cons, hzero]
    rfl
  · intro c
    rfl
  · intro r c hr
    rcases hr with rfl | rfl | rfl <;> rfl
  · intro r c h1 h2 h3 h4
    simp [convertMessage, h1, h2, h3, h4]

/-- Witness for C7: with instructions configured, a single user message
converts to a system message followed by a human message. -/
theorem convert_messages_spec_witness :
    ("Be helpful" ≠ "")
    ∧ convertToLangchainMessages "Be helpful" [{ role := "user", content := "hi" }]
        = [LCMessage.system "Be helpful", LCMessage.human "hi"] := by
  refine ⟨by decide, ?_⟩
  have h := (convert_messages_spec "Be helpful"
    [{ role := "user", content := "hi" }] (by decide)).1
  rw [h]
  rfl

/-- C9: with the empty string configured as instructions, no system message
is prepended at all — the converted history is exactly the converted input
messages. -/
theorem empty_instructions_no_system (msgs : List UnifiedUIMessage) :
    convertToLangchainMessages "" msgs = msgs.map convertMessage
    ∧ List.countP (fun m => LCMessage.isSystem m)
        (convertToLangchainMessages "" msgs) = 0 := by
  have hmain : convertToLangchainMessages "" msgs = msgs.map convertMessage := by
    unfold convertToLangchainMessages
    simp [foldl_convert_eq]
  refine ⟨hmain, ?_⟩
  rw [hmain, List.countP_eq_zero]
  intro a ha
  obtain ⟨m, _, rfl⟩ := List.mem_map.mp ha
  simp [convertMessage_not_system]

/-- C8: a manifest entry with an absent (or empty) description yields the
placeholder description `MCP tool: <name>`, while a supplied non-empty
description is kept unchanged; name and input schema pass through. -/
theorem tool_description_placeholder (t : MCPTool) :
    ((t.description = none ∨ t.description = some "") →
      (toToolInfo t).description = "MCP tool: " ++ t.name)
    ∧ (∀ d, t.description = some d → d ≠ "" → (toToolInfo t).description = d)
    ∧ (toToolInfo t).name = t.name
    ∧ (toToolInfo t).input_schema = t.inputSchema := by
  refine ⟨?_, ?_, rfl, rfl⟩
  · intro h
    rcases h with h | h <;> simp [toToolInfo, h]
  · intro d hd hne
    simp [toToolInfo, hd, hne]

/-- Witness for C8: a description-less manifest entry named `add` gets the
placeholder description. -/
theorem tool_description_placeholder_witness :
    ((MCPTool.mk "add" none none).description = none
      ∨ (MCPTool.mk "add" none none).description = some "")
    ∧ (toToolInfo (MCPTool.mk "add" none none)).description = "MCP tool: add" := by
  refine ⟨Or.inl rfl, ?_⟩
  have h := (tool_description_placeholder (MCPTool.mk "add" none none)).1 (Or.inl rfl)
  exact h.trans (by decide)

/-- C10: a configuration entry whose type is not `mcp_server` contributes
no tools and raises no error (the aggregate is as if the entry were
absent), and the aggregate of any concatenated configuration is the
in-order concatenation of the per-part aggregates. -/
theorem load_tools_skip_non_mcp (mcpA : Bool)
    (disc : MCPServerConfig → Except String (List ToolInfo))
    (pre post : List ToolConfig) (tc : ToolConfig)
    (h : tc.type ≠ "mcp_server") :
    loadTools mcpA disc (pre ++ tc :: post) = loadTools mcpA disc (pre ++ post)
    ∧ ∀ xs ys : List ToolConfig,
        loadTools mcpA disc (xs ++ ys)
          = Except.bind (loadTools mcpA disc xs)
              (fun a => Except.map (fun b => a ++ b) (loadTools mcpA disc ys)) := by
  constructor
  · have hskip : loadTools mcpA disc (tc :: post) = loadTools mcpA disc post := by
      simp [loadTools, h]
    rw [loadTools_append, loadTools_append, hskip]
  · exact fun xs ys => loadTools_append mcpA disc xs ys

/-- Witness for C10: a `web_search` entry between two MCP entries leaves
the aggregated tool set unchanged. -/
theorem load_tools_skip_non_mcp_witness :
    webSearchConfig.type ≠ "mcp_server"
    ∧ loadTools true discFailCalc ([allowConfigAC] ++ webSearchConfig :: [allowConfigAC])
        = loadTools true discFailCalc ([allowConfigAC] ++ [allowConfigAC]) := by
  refine ⟨by decide, ?_⟩
  exact (load_tools_skip_non_mcp true discFailCalc [allowConfigAC] [allowConfigAC]
    webSearchConfig (by decide)).1

end UnifiedUI
